import Mathlib

/-!
Verification of the Revora revenue-share contract (src/src/lib.rs).

The contract state (Soroban persistent storage) is embedded as a record of
total/partial maps; each public entry point becomes a Lean function from a
state and its arguments to `Except Failure (new state, result)`.  Machine
integers (`i128`, `u32`, `u64`) are embedded as `Int`/`Nat` with explicit
range handling exactly where the source performs `checked_*`/`saturating_*`
arithmetic.  Host-provided facilities (authorization, token transfer, event
sink) are external collaborators: authorization and transfers are modelled
as succeeding, and the events relevant to the verified properties are
returned explicitly where needed.
-/

namespace Revora

/-- Addresses (`soroban_sdk::Address`) are opaque comparable values. -/
abbrev Addr := Nat

/-- Machine-integer range constants for the `i128` arithmetic in the source. -/
def i128_min : Int := -(2 ^ 127)

/-- Largest `i128` value. -/
def i128_max : Int := 2 ^ 127 - 1

/-- Largest `u64` value (used by `u64::saturating_add`). -/
def u64_max : Nat := 2 ^ 64 - 1

/-- Rust `i128::checked_mul`: `none` when the product leaves the `i128` range. -/
def checked_mul (a b : Int) : Option Int :=
  if a * b < i128_min ∨ i128_max < a * b then none else some (a * b)

/-- Rust `i128::checked_div`: `none` on division by zero or `MIN / -1` overflow;
Rust integer division truncates toward zero (`Int.tdiv`). -/
def checked_div (a b : Int) : Option Int :=
  if b = 0 ∨ (a = i128_min ∧ b = -1) then none else some (a.tdiv b)

/-- Rust `i128::saturating_add`. -/
def saturating_add_i128 (a b : Int) : Int :=
  max i128_min (min i128_max (a + b))

/-- Rust `i128::saturating_sub`. -/
def saturating_sub_i128 (a b : Int) : Int :=
  max i128_min (min i128_max (a - b))

/-- Rust `u64::saturating_add`. -/
def saturating_add_u64 (a b : Nat) : Nat :=
  min (a + b) u64_max

/-- Contract error codes (`RevoraError` in lib.rs). -/
inductive RevoraError where
  | InvalidRevenueShareBps
  | LimitReached
  | ConcentrationLimitExceeded
  | OfferingNotFound
  | PeriodAlreadyDeposited
  | NoPendingClaims
  | HolderBlacklisted
  | InvalidShareBps
  | PaymentTokenMismatch
  | ContractFrozen
  | ClaimDelayNotElapsed
  | IssuerTransferPending
  | NoTransferPending
  | UnauthorizedTransferAccept
  | PayoutAssetMismatch
deriving DecidableEq, Repr

/-- A call either returns a typed contract error (`Err(RevoraError)`) or
aborts via a host panic (`panic!`, `expect`, `unwrap`): the two are distinct
observable failure modes. -/
inductive Failure where
  | err (e : RevoraError)
  | panic
deriving DecidableEq, Repr

/-- Rounding modes for share math (`RoundingMode` in lib.rs). -/
inductive RoundingMode where
  | Truncation
  | RoundHalfUp
deriving DecidableEq, Repr

/-- Clamp `x` into `[lo, hi]`; the source writes
`core::cmp::min(core::cmp::max(share, lo), hi)`. -/
def clamp (x lo hi : Int) : Int := min (max x lo) hi

/-- Distribution Math `compute_share` (lib.rs:974-1001): share of `amount` at
`revenue_share_bps` under `mode`; result clamped into
`[min(0,amount), max(0,amount)]`. -/
def compute_share (amount : Int) (revenue_share_bps : Nat) (mode : RoundingMode) : Int :=
  if revenue_share_bps > 10000 then 0
  else
    let bps : Int := (revenue_share_bps : Int)
    let raw : Int := (checked_mul amount bps).getD 0
    let share : Int :=
      match mode with
      | RoundingMode.Truncation => (checked_div raw 10000).getD 0
      | RoundingMode.RoundHalfUp =>
          let adjusted : Int :=
            if raw ≥ 0 then saturating_add_i128 raw 5000 else saturating_sub_i128 raw 5000
          (checked_div adjusted 10000).getD 0
    clamp share (min 0 amount) (max 0 amount)

/-- A registered revenue-share offering (`Offering` in lib.rs). -/
structure Offering where
  issuer : Addr
  token : Addr
  revenue_share_bps : Nat
  payout_asset : Addr
deriving DecidableEq, Repr

/-- Per-offering concentration guardrail config. -/
structure ConcentrationLimitConfig where
  max_bps : Nat
  enforce : Bool
deriving DecidableEq, Repr

/-- Per-offering audit log summary. -/
structure AuditSummary where
  total_revenue : Int
  report_count : Nat
deriving DecidableEq, Repr

/-- The contract's persistent storage (one field per `DataKey` variant used
by the verified entry points).  Partial maps are `Option`-valued functions;
counters default to 0 exactly where the source reads with `unwrap_or(0)`. -/
structure State where
  frozen : Bool
  paused : Bool
  testnet_mode : Bool
  event_versioning : Bool
  offer_count : Addr → Nat
  offer_item : Addr → Nat → Option Offering
  offering_issuer : Addr → Option Addr
  blacklist : Addr → Addr → Bool
  holder_share : Addr → Addr → Option Nat
  last_claimed_idx : Addr → Addr → Option Nat
  period_count : Addr → Nat
  period_entry : Addr → Nat → Option Nat
  period_revenue : Addr → Nat → Option Int
  period_deposit_time : Addr → Nat → Option Nat
  payment_token : Addr → Option Addr
  claim_delay_secs : Addr → Option Nat
  pending_transfer : Addr → Option Addr
  revenue_reports : Addr → Addr → Nat → Option (Int × Nat)
  audit_summary : Addr → Addr → Option AuditSummary
  rounding_mode : Addr → Addr → Option RoundingMode
  concentration_limit : Addr → Addr → Option ConcentrationLimitConfig
  current_concentration : Addr → Addr → Option Nat

/-- Point update of a total one-key map. -/
def updT {β : Type} (f : Addr → β) (a : Addr) (v : β) : Addr → β :=
  fun x => if x = a then v else f x

/-- Point update of a partial one-key map (`none` models `remove`). -/
def upd1 {β : Type} (f : Addr → Option β) (a : Addr) (v : Option β) : Addr → Option β :=
  fun x => if x = a then v else f x

/-- Point update of a partial two-key map. -/
def upd2 {κ : Type} [DecidableEq κ] {β : Type}
    (f : Addr → κ → Option β) (a : Addr) (k : κ) (v : Option β) : Addr → κ → Option β :=
  fun x y => if x = a ∧ y = k then v else f x y

/-- Point update of a total two-key map. -/
def updT2 {κ : Type} [DecidableEq κ] {β : Type}
    (f : Addr → κ → β) (a : Addr) (k : κ) (v : β) : Addr → κ → β :=
  fun x y => if x = a ∧ y = k then v else f x y

/-- Point update of the three-key revenue-reports map. -/
def upd3 {β : Type} (f : Addr → Addr → Nat → Option β) (a b : Addr) (k : Nat) (v : Option β) :
    Addr → Addr → Nat → Option β :=
  fun x y z => if x = a ∧ y = b ∧ z = k then v else f x y z

/-- Ascending first-match scan over indices `i, i+1, ...` with `fuel` steps;
mirrors the `for i in 0..count { if p { return/break } }` loops in the source. -/
def scanFirst (p : Nat → Bool) (i : Nat) : Nat → Option Nat
  | 0 => none
  | fuel + 1 => if p i then some i else scanFirst p (i + 1) fuel

/-- Whether the stored slot holds an offering for `token`.  A well-formed
registry has every slot below the count populated; the source `unwrap`s each
slot, so a missing slot (treated here as a non-match) cannot occur on the
states the theorems quantify over. -/
def slotMatches (s : State) (issuer token : Addr) (i : Nat) : Bool :=
  match s.offer_item issuer i with
  | some off => decide (off.token = token)
  | none => false

/-- lib.rs `get_offering`: first offering in `issuer`'s list whose token is
`token`. -/
def get_offering (s : State) (issuer token : Addr) : Option Offering :=
  match scanFirst (slotMatches s issuer token) 0 (s.offer_count issuer) with
  | some i => s.offer_item issuer i
  | none => none

/-- lib.rs `register_offering`: frozen check, paused check, issuer auth,
bps validation (skipped in testnet mode), append to the issuer's list and
overwrite the token→issuer reverse index. -/
def register_offering (s : State) (issuer token : Addr) (revenue_share_bps : Nat)
    (payout_asset : Addr) : Except Failure State :=
  if s.frozen then .error (.err .ContractFrozen)
  else if s.paused then .error .panic
  else
    -- issuer.require_auth(): external authorization collaborator, modelled as succeeding
    if ¬ s.testnet_mode ∧ revenue_share_bps > 10000 then .error (.err .InvalidRevenueShareBps)
    else
      let count := s.offer_count issuer
      let off : Offering := ⟨issuer, token, revenue_share_bps, payout_asset⟩
      .ok { s with
        offer_item := upd2 s.offer_item issuer count (some off)
        offer_count := updT s.offer_count issuer (count + 1)
        offering_issuer := upd1 s.offering_issuer token (some issuer) }

/-- lib.rs `set_holder_share`: frozen check, reverse-index issuer check,
auth, bps validation, store the holder's share. -/
def set_holder_share (s : State) (issuer token holder : Addr) (share_bps : Nat) :
    Except Failure State :=
  if s.frozen then .error (.err .ContractFrozen)
  else
    match s.offering_issuer token with
    | none => .error (.err .OfferingNotFound)
    | some current_issuer =>
      if current_issuer ≠ issuer then .error (.err .OfferingNotFound)
      else
        -- issuer.require_auth()
        if share_bps > 10000 then .error (.err .InvalidShareBps)
        else .ok { s with holder_share := upd2 s.holder_share token holder (some share_bps) }

/-- lib.rs `blacklist_add` (lines 727-750): frozen check, paused check,
caller auth (no role check beyond authentication), then `map.set(investor,
true)` on the token's blacklist map. -/
def blacklist_add (s : State) (caller token investor : Addr) : Except Failure State :=
  if s.frozen then .error (.err .ContractFrozen)
  else if s.paused then .error .panic
  else
    -- caller.require_auth()
    .ok { s with blacklist := updT2 s.blacklist token investor true }

/-- lib.rs `blacklist_remove` (lines 765-788): frozen check, paused check,
caller auth, then `map.remove(investor)`; since `is_blacklisted` reads the
map with `unwrap_or(false)`, removal is setting the membership to false in
the boolean-map embedding. -/
def blacklist_remove (s : State) (caller token investor : Addr) : Except Failure State :=
  if s.frozen then .error (.err .ContractFrozen)
  else if s.paused then .error .panic
  else
    -- caller.require_auth()
    .ok { s with blacklist := updT2 s.blacklist token investor false }

/-- The storage writes performed by a successful `deposit_revenue` after the
payment-token lock is resolved: period revenue, deposit timestamp, period
index entry, period count. -/
def deposit_writes (s : State) (token : Addr) (amount : Int) (period_id now : Nat) : State :=
  let count := s.period_count token
  { s with
    period_revenue := upd2 s.period_revenue token period_id (some amount)
    period_deposit_time := upd2 s.period_deposit_time token period_id (some now)
    period_entry := upd2 s.period_entry token count (some period_id)
    period_count := updT s.period_count token (count + 1) }

/-- lib.rs `deposit_revenue` (lines 1024-1091): frozen check, reverse-index
issuer check, offering lookup and payout-asset check, auth, write-once period
check, payment-token lock, external transfer (modelled as succeeding), then
the period writes.  Note the source performs no `Paused` check here. -/
def deposit_revenue (s : State) (issuer token payment_token : Addr) (amount : Int)
    (period_id now : Nat) : Except Failure State :=
  if s.frozen then .error (.err .ContractFrozen)
  else
    match s.offering_issuer token with
    | none => .error (.err .OfferingNotFound)
    | some current_issuer =>
      if current_issuer ≠ issuer then .error (.err .OfferingNotFound)
      else
        match get_offering s issuer token with
        | none => .error (.err .OfferingNotFound)
        | some off =>
          if off.payout_asset ≠ payment_token then .error (.err .PayoutAssetMismatch)
          else
            -- issuer.require_auth()
            if (s.period_revenue token period_id).isSome then
              .error (.err .PeriodAlreadyDeposited)
            else
              match s.payment_token token with
              | some existing_pt =>
                if existing_pt ≠ payment_token then .error (.err .PaymentTokenMismatch)
                else
                  -- token transfer issuer → contract: external collaborator, succeeds
                  .ok (deposit_writes s token amount period_id now)
              | none =>
                .ok (deposit_writes
                  { s with payment_token := upd1 s.payment_token token (some payment_token) }
                  token amount period_id now)

/-- The maximum number of periods claimable per transaction (`MAX_CLAIM_PERIODS`). -/
def MAX_CLAIM_PERIODS : Nat := 50

/-- Period id stored at index `i` of `token`'s period list (source `unwrap`s;
well-formed states have the entry present). -/
def pidOf (s : State) (token : Addr) (i : Nat) : Nat :=
  (s.period_entry token i).getD 0

/-- Deposit timestamp of the period at index `i` (source reads with
`unwrap_or(0)`). -/
def dtimeOf (s : State) (token : Addr) (i : Nat) : Nat :=
  (s.period_deposit_time token (pidOf s token i)).getD 0

/-- Revenue stored for the period at index `i` (source `unwrap`s; well-formed
states have it present). -/
def revOf (s : State) (token : Addr) (i : Nat) : Int :=
  (s.period_revenue token (pidOf s token i)).getD 0

/-- The `claim` loop's break condition at index `i`:
`delay_secs > 0 && now < deposit_time.saturating_add(delay_secs)`. -/
def periodUnready (s : State) (token : Addr) (delay_secs now i : Nat) : Bool :=
  decide (0 < delay_secs) && decide (now < min (dtimeOf s token i + delay_secs) u64_max)

/-- The scan loop of `claim` (lib.rs:1202-1216), starting at index `i` with
`fuel = end_idx - i` iterations left.  Returns
(total payout, claimed period ids, final `last_claimed_idx`). -/
def claimLoop (s : State) (token : Addr) (share_bps delay_secs now : Nat) :
    Nat → Nat → Int × List Nat × Nat
  | i, 0 => (0, [], i)
  | i, fuel + 1 =>
    if periodUnready s token delay_secs now i then (0, [], i)
    else
      let payout : Int := (revOf s token i * (share_bps : Int)).tdiv 10000
      let rest := claimLoop s token share_bps delay_secs now (i + 1) fuel
      (payout + rest.1, pidOf s token i :: rest.2.1, rest.2.2)

/-- A holder's claim cursor (`LastClaimedIdx`, read with `unwrap_or(0)`):
the source's `start_idx`. -/
def cursorOf (s : State) (token holder : Addr) : Nat :=
  (s.last_claimed_idx token holder).getD 0

/-- The source's `end_idx`: cursor plus the clamped batch size
(`effective_max`, treating 0 or anything above `MAX_CLAIM_PERIODS` as the
cap), capped at the period count. -/
def claimEnd (s : State) (holder token : Addr) (max_periods : Nat) : Nat :=
  min (cursorOf s token holder +
        (if max_periods = 0 ∨ max_periods > MAX_CLAIM_PERIODS then MAX_CLAIM_PERIODS
         else max_periods))
    (s.period_count token)

/-- The source's `r = (total_payout, claimed_periods, last_claimed_idx)`
after the scan loop, as a function of the pre-state. -/
def claimRun (s : State) (holder token : Addr) (max_periods now : Nat) : Int × List Nat × Nat :=
  claimLoop s token ((s.holder_share token holder).getD 0) ((s.claim_delay_secs token).getD 0)
    now (cursorOf s token holder) (claimEnd s holder token max_periods - cursorOf s token holder)

/-- lib.rs `claim` (lines 1160-1243): holder auth, blacklist check, holder
share check, cursor/period-count checks, then the batch-clamped delay-aware
scan (`claimRun`), `ClaimDelayNotElapsed` if nothing advanced, external
payout transfer (modelled as succeeding), cursor persist.  Note the source
performs no `Frozen` or `Paused` check in this entry point. -/
def claim (s : State) (holder token : Addr) (max_periods now : Nat) :
    Except Failure (State × Int) :=
  -- holder.require_auth()
  if s.blacklist token holder then .error (.err .HolderBlacklisted)
  else if (s.holder_share token holder).getD 0 = 0 then .error (.err .NoPendingClaims)
  else if cursorOf s token holder ≥ s.period_count token then .error (.err .NoPendingClaims)
  else if (claimRun s holder token max_periods now).2.2 = cursorOf s token holder then
    .error (.err .ClaimDelayNotElapsed)
  else
    -- payout transfer contract → holder: external collaborator, succeeds
    let idx2 := upd2 s.last_claimed_idx token holder
      (some ((claimRun s holder token max_periods now).2.2))
    .ok ({ s with last_claimed_idx := idx2 }, (claimRun s holder token max_periods now).1)

/-- Transactional view of a `claim` call: a failed call rolls every write
back, so the post-state of a failure is the pre-state. -/
def claimTx (s : State) (holder token : Addr) (max_periods now : Nat) : State :=
  match claim s holder token max_periods now with
  | .ok (s2, _) => s2
  | .error _ => s

/-- The payout returned by a successful `claim` call, `none` on failure. -/
def claimPayout (r : Except Failure (State × Int)) : Option Int :=
  match r with
  | .ok (_, p) => some p
  | .error _ => none

/-- Event tags emitted by `report_revenue`, in publish order. -/
inductive Ev where
  | revOvrd
  | revOvra
  | revRej
  | revReja
  | revInit
  | revInia
  | revRep
  | revRepa
  | rvInit1
  | rvInia1
  | rvRep1
  | rvRepa1
deriving DecidableEq, Repr

/-- The concentration guardrail condition of `report_revenue`: enforcement on,
a positive limit configured, and the last reported concentration above it. -/
def concBlocked (s : State) (issuer token : Addr) : Bool :=
  match s.concentration_limit issuer token with
  | some config =>
    config.enforce && decide (0 < config.max_bps) &&
      decide (config.max_bps < (s.current_concentration issuer token).getD 0)
  | none => false

/-- lib.rs `report_revenue` (lines 494-674): frozen check, reverse-index
issuer check, paused check, auth, offering lookup and payout-asset check,
concentration guardrail (skipped in testnet mode), then the
initial/override/rejected outcome on the reports map, the unconditional
compatibility events, optional versioned events, and the audit-summary
update.  Returns the post-state and the emitted event tags. -/
def report_revenue (s : State) (issuer token payout_asset : Addr) (amount : Int)
    (period_id now : Nat) (override_existing : Bool) : Except Failure (State × List Ev) :=
  if s.frozen then .error (.err .ContractFrozen)
  else
    match s.offering_issuer token with
    | none => .error (.err .OfferingNotFound)
    | some current_issuer =>
      if current_issuer ≠ issuer then .error (.err .OfferingNotFound)
      else if s.paused then .error .panic
      else
        -- issuer.require_auth()
        match get_offering s issuer token with
        | none => .error (.err .OfferingNotFound)
        | some off =>
          if off.payout_asset ≠ payout_asset then .error (.err .PayoutAssetMismatch)
          else if ¬ s.testnet_mode ∧ concBlocked s issuer token then
            .error (.err .ConcentrationLimitExceeded)
          else
            let reports1 := upd3 s.revenue_reports issuer token period_id (some (amount, now))
            let outcome : State × List Ev :=
              match s.revenue_reports issuer token period_id with
              | some _ =>
                if override_existing then
                  ({ s with revenue_reports := reports1 }, [Ev.revOvrd, Ev.revOvra])
                else (s, [Ev.revRej, Ev.revReja])
              | none =>
                ({ s with revenue_reports := reports1 }, [Ev.revInit, Ev.revInia])
            let evs := outcome.2 ++ [Ev.revRep, Ev.revRepa] ++
              (if s.event_versioning then [Ev.rvInit1, Ev.rvInia1, Ev.rvRep1, Ev.rvRepa1] else [])
            let old := (s.audit_summary issuer token).getD ⟨0, 0⟩
            let summary : AuditSummary :=
              ⟨saturating_add_i128 old.total_revenue amount,
               saturating_add_u64 old.report_count 1⟩
            let audit1 := upd2 outcome.1.audit_summary issuer token (some summary)
            .ok ({ outcome.1 with audit_summary := audit1 }, evs)

/-- lib.rs `accept_issuer_transfer` (lines 1466-1561): frozen check, pending
lookup, new-issuer auth, reverse-index lookup, offering and index lookup in
the old issuer's list, removal with swap-with-last compaction, count updates,
insertion into the new issuer's list, reverse-index update, pending clear. -/
def accept_issuer_transfer (s : State) (token : Addr) : Except Failure State :=
  if s.frozen then .error (.err .ContractFrozen)
  else
    match s.pending_transfer token with
    | none => .error (.err .NoTransferPending)
    | some new_issuer =>
      -- new_issuer.require_auth()
      match s.offering_issuer token with
      | none => .error (.err .OfferingNotFound)
      | some old_issuer =>
        match get_offering s old_issuer token with
        | none => .error (.err .OfferingNotFound)
        | some off =>
          match scanFirst (slotMatches s old_issuer token) 0 (s.offer_count old_issuer) with
          | none => .error (.err .OfferingNotFound)
          | some index =>
            let updated : Offering := ⟨new_issuer, token, off.revenue_share_bps, off.payout_asset⟩
            let items1 := upd2 s.offer_item old_issuer index none
            let old_count := s.offer_count old_issuer
            let step : Except Failure (Addr → Nat → Option Offering) :=
              if index < old_count - 1 then
                match items1 old_issuer (old_count - 1) with
                | some last_offering =>
                  .ok (upd2 (upd2 items1 old_issuer index (some last_offering))
                        old_issuer (old_count - 1) none)
                | none => .error .panic
              else .ok items1
            match step with
            | .error e => .error e
            | .ok items2 =>
              let counts1 := updT s.offer_count old_issuer (old_count - 1)
              let new_count := counts1 new_issuer
              let items3 := upd2 items2 new_issuer new_count (some updated)
              let counts2 := updT counts1 new_issuer (new_count + 1)
              .ok { s with
                offer_item := items3
                offer_count := counts2
                offering_issuer := upd1 s.offering_issuer token (some new_issuer)
                pending_transfer := upd1 s.pending_transfer token none }

/-- Number of slots below `n` (of `issuer`'s list) holding an offering for
`token`; used to state uniqueness across offering lists. -/
def countMatching (p : Nat → Bool) : Nat → Nat
  | 0 => 0
  | n + 1 => countMatching p n + (if p n then 1 else 0)

/-- Occurrences of `token` in `issuer`'s offering list. -/
def tokenCount (s : State) (issuer token : Addr) : Nat :=
  countMatching (slotMatches s issuer token) (s.offer_count issuer)

/-- Truncating per-period payout sum of the `claim` loop: indices
`i, i+1, ..., i+n-1`, each contributing `revenue * share_bps / 10000` with
Rust's truncating `i128` division. -/
def truncPayoutSum (s : State) (token : Addr) (b : Nat) : Nat → Nat → Int
  | _, 0 => 0
  | i, n + 1 => (revOf s token i * (b : Int)).tdiv 10000 + truncPayoutSum s token b (i + 1) n

/-- The same sum expressed through the Distribution Math function with
`Truncation` mode, for comparing `claim`'s arithmetic against
`compute_share`. -/
def truncShareSum (s : State) (token : Addr) (b : Nat) : Nat → Nat → Int
  | _, 0 => 0
  | i, n + 1 =>
    compute_share (revOf s token i) b RoundingMode.Truncation + truncShareSum s token b (i + 1) n

/-- The call succeeded and its result satisfies `P`. -/
def okSat {α : Type} (r : Except Failure α) (P : α → Prop) : Prop :=
  match r with
  | .ok a => P a
  | .error _ => False

/-- The failure of a call, `none` on success: two calls with equal `errOf`
fail identically. -/
def errOf {α : Type} : Except Failure α → Option Failure
  | .ok _ => none
  | .error e => some e

/-- The state with empty storage and all lifecycle flags cleared. -/
def emptyState : State where
  frozen := false
  paused := false
  testnet_mode := false
  event_versioning := false
  offer_count := fun _ => 0
  offer_item := fun _ _ => none
  offering_issuer := fun _ => none
  blacklist := fun _ _ => false
  holder_share := fun _ _ => none
  last_claimed_idx := fun _ _ => none
  period_count := fun _ => 0
  period_entry := fun _ _ => none
  period_revenue := fun _ _ => none
  period_deposit_time := fun _ _ => none
  payment_token := fun _ => none
  claim_delay_secs := fun _ => none
  pending_transfer := fun _ => none
  revenue_reports := fun _ _ _ => none
  audit_summary := fun _ _ => none
  rounding_mode := fun _ _ => none
  concentration_limit := fun _ _ => none
  current_concentration := fun _ _ => none

/-- Offering slot of a registration result (`none` on failure); projection
used to state concrete facts about `register_offering`'s stored data. -/
def regItemAt (r : Except Failure State) (issuer : Addr) (i : Nat) : Option Offering :=
  match r with
  | .ok s => s.offer_item issuer i
  | .error _ => none

/-- Reverse-index entry of a call's result state (`none` on failure). -/
def okIssuerAt (r : Except Failure State) (token : Addr) : Option Addr :=
  match r with
  | .ok s => s.offering_issuer token
  | .error _ => none

/-- Holder-share entry of a call's result state (`none` on failure). -/
def holderShareAt (r : Except Failure State) (token holder : Addr) : Option Nat :=
  match r with
  | .ok s => s.holder_share token holder
  | .error _ => none

/-- Result state of a `State`-returning call (`emptyState` on failure). -/
def okStateD (r : Except Failure State) : State :=
  match r with
  | .ok s => s
  | .error _ => emptyState

/-- Revenue-reports entry of a `report_revenue` result. -/
def reportsAt (r : Except Failure (State × List Ev)) (issuer token : Addr) (pid : Nat) :
    Option (Int × Nat) :=
  match r with
  | .ok (s, _) => s.revenue_reports issuer token pid
  | .error _ => none

/-- Audit-summary entry of a `report_revenue` result. -/
def auditAt (r : Except Failure (State × List Ev)) (issuer token : Addr) :
    Option AuditSummary :=
  match r with
  | .ok (s, _) => s.audit_summary issuer token
  | .error _ => none

/-- A state with one claimable offering and `RoundHalfUp` configured:
issuer 1, token 2, holder 3, payout asset 4, one deposited period with id 10,
revenue 1 and holder share 5000 bps. -/
def sHalfUp : State := { emptyState with
  offering_issuer := upd1 emptyState.offering_issuer 2 (some 1)
  rounding_mode := upd2 emptyState.rounding_mode 1 2 (some RoundingMode.RoundHalfUp)
  holder_share := upd2 emptyState.holder_share 2 3 (some 5000)
  period_count := updT emptyState.period_count 2 1
  period_entry := upd2 emptyState.period_entry 2 0 (some 10)
  period_revenue := upd2 emptyState.period_revenue 2 10 (some 1)
  period_deposit_time := upd2 emptyState.period_deposit_time 2 10 (some 0)
  payment_token := upd1 emptyState.payment_token 2 (some 4) }

/-- A frozen and paused state that still has a fully claimable offering:
token 2, holder 3 with share 5000 bps, one period with id 7 and revenue 10. -/
def sFlags : State := { emptyState with
  frozen := true
  paused := true
  holder_share := upd2 emptyState.holder_share 2 3 (some 5000)
  period_count := updT emptyState.period_count 2 1
  period_entry := upd2 emptyState.period_entry 2 0 (some 7)
  period_revenue := upd2 emptyState.period_revenue 2 7 (some 10)
  period_deposit_time := upd2 emptyState.period_deposit_time 2 7 (some 0)
  payment_token := upd1 emptyState.payment_token 2 (some 4) }

/-- A state with testnet mode enabled and otherwise empty storage. -/
def sTestnet : State := { emptyState with testnet_mode := true }

/-- A state with one registered offering (issuer 1, token 2, payout asset 4)
and no deposits yet. -/
def sDeposit : State := { emptyState with
  offer_count := updT emptyState.offer_count 1 1
  offer_item := upd2 emptyState.offer_item 1 0 (some ⟨1, 2, 5000, 4⟩)
  offering_issuer := upd1 emptyState.offering_issuer 2 (some 1) }

/-- A state with a 20-second claim delay on token 2 and two deposited
periods: index 0 (period 5, deposited at 10, revenue 100) and index 1
(period 6, deposited at 95, revenue 200); holder 3 has share 5000 bps. -/
def sDelay : State := { emptyState with
  holder_share := upd2 emptyState.holder_share 2 3 (some 5000)
  claim_delay_secs := upd1 emptyState.claim_delay_secs 2 (some 20)
  period_count := updT emptyState.period_count 2 2
  period_entry := upd2 (upd2 emptyState.period_entry 2 0 (some 5)) 2 1 (some 6)
  period_revenue := upd2 (upd2 emptyState.period_revenue 2 5 (some 100)) 2 6 (some 200)
  period_deposit_time :=
    upd2 (upd2 emptyState.period_deposit_time 2 5 (some 10)) 2 6 (some 95)
  payment_token := upd1 emptyState.payment_token 2 (some 4) }

/-- A state with a pending issuer transfer of token 2 from issuer 1 to
issuer 4: issuer 1 holds the token-2 offering at slot 0 and an unrelated
token-7 offering at slot 1; issuer 4 holds none. -/
def sXfer : State := { emptyState with
  offer_count := updT emptyState.offer_count 1 2
  offer_item :=
    upd2 (upd2 emptyState.offer_item 1 0 (some ⟨1, 2, 3000, 4⟩)) 1 1 (some ⟨1, 7, 1000, 4⟩)
  offering_issuer := upd1 (upd1 emptyState.offering_issuer 2 (some 1)) 7 (some 1)
  pending_transfer := upd1 emptyState.pending_transfer 2 (some 4) }

/-- A state with one registered offering (issuer 1, token 2, payout asset 4),
an existing revenue report for period 9 (amount 100 at time 11) and an audit
summary of one report totalling 100. -/
def sReport : State := { emptyState with
  offer_count := updT emptyState.offer_count 1 1
  offer_item := upd2 emptyState.offer_item 1 0 (some ⟨1, 2, 5000, 4⟩)
  offering_issuer := upd1 emptyState.offering_issuer 2 (some 1)
  revenue_reports := upd3 emptyState.revenue_reports 1 2 9 (some (100, 11))
  audit_summary := upd2 emptyState.audit_summary 1 2 (some ⟨100, 1⟩) }

theorem updT_same {β : Type} (f : Addr → β) (a : Addr) (v : β) : updT f a v a = v := by
  simp [updT]

theorem upd1_same {β : Type} (f : Addr → Option β) (a : Addr) (v : Option β) :
    upd1 f a v a = v := by
  simp [upd1]

theorem upd2_same {κ : Type} [DecidableEq κ] {β : Type} (f : Addr → κ → Option β)
    (a : Addr) (k : κ) (v : Option β) : upd2 f a k v a k = v := by
  simp [upd2]

theorem upd3_same {β : Type} (f : Addr → Addr → Nat → Option β) (a b : Addr) (k : Nat)
    (v : Option β) : upd3 f a b k v a b k = v := by
  simp [upd3]

theorem updT_ne {β : Type} (f : Addr → β) (a x : Addr) (v : β) (h : x ≠ a) :
    updT f a v x = f x := by
  simp [updT, h]

theorem upd1_ne {β : Type} (f : Addr → Option β) (a x : Addr) (v : Option β) (h : x ≠ a) :
    upd1 f a v x = f x := by
  simp [upd1, h]

theorem upd2_ne {κ : Type} [DecidableEq κ] {β : Type} (f : Addr → κ → Option β)
    (a x : Addr) (k y : κ) (v : Option β) (h : ¬(x = a ∧ y = k)) : upd2 f a k v x y = f x y := by
  simp [upd2, h]

theorem clamp_bounds (x lo hi : Int) (h : lo ≤ hi) :
    lo ≤ clamp x lo hi ∧ clamp x lo hi ≤ hi := by
  unfold clamp
  constructor
  · exact le_min (le_max_right x lo) h
  · exact min_le_right _ _

theorem compute_share_lo_hi (amount : Int) (b : Nat) (m : RoundingMode) :
    min 0 amount ≤ compute_share amount b m ∧ compute_share amount b m ≤ max 0 amount := by
  unfold compute_share
  split
  · constructor
    · exact min_le_left 0 amount
    · exact le_max_left 0 amount
  · exact clamp_bounds _ _ _ (min_le_of_left_le (le_max_left 0 amount))

theorem tdiv_bps_nonneg_bounds (q : Int) (b : Nat) (hq : 0 ≤ q) (hb : b ≤ 10000) :
    0 ≤ (q * (b : Int)).tdiv 10000 ∧ (q * (b : Int)).tdiv 10000 ≤ q := by
  have hb0 : (0 : Int) ≤ (b : Int) := Int.natCast_nonneg b
  have hb1 : (b : Int) ≤ 10000 := by exact_mod_cast hb
  have h1 : 0 ≤ q * (b : Int) := mul_nonneg hq hb0
  have ht : (q * (b : Int)).tdiv 10000 = q * (b : Int) / 10000 :=
    Int.tdiv_eq_ediv h1 (by norm_num)
  constructor
  · rw [ht]
    exact Int.ediv_nonneg h1 (by norm_num)
  · rw [ht]
    calc q * (b : Int) / 10000 ≤ q * 10000 / 10000 :=
          Int.ediv_le_ediv (by norm_num) (mul_le_mul_of_nonneg_left hb1 hq)
      _ = q := Int.mul_ediv_cancel q (by norm_num)

theorem tdiv_bps_bounds (r : Int) (b : Nat) (hb : b ≤ 10000) :
    min 0 r ≤ (r * (b : Int)).tdiv 10000 ∧ (r * (b : Int)).tdiv 10000 ≤ max 0 r := by
  rcases le_total 0 r with hr | hr
  · obtain ⟨h1, h2⟩ := tdiv_bps_nonneg_bounds r b hr hb
    rw [min_eq_left hr, max_eq_right hr]
    exact ⟨h1, h2⟩
  · obtain ⟨h1, h2⟩ := tdiv_bps_nonneg_bounds (-r) b (by omega) hb
    have hneg : r * (b : Int) = -(-r * (b : Int)) := by ring
    rw [min_eq_right hr, max_eq_left hr, hneg, Int.neg_tdiv]
    omega

/-- On inputs whose product with the bps fits in `i128`, `compute_share`
with `Truncation` mode computes exactly the truncating division
`amount * bps / 10000` used inline by `claim`. -/
theorem compute_share_truncation_eq (r : Int) (b : Nat) (hb : b ≤ 10000)
    (hlo : -(2 ^ 113) ≤ r) (hhi : r ≤ 2 ^ 113) :
    compute_share r b RoundingMode.Truncation = (r * (b : Int)).tdiv 10000 := by
  have hb1 : (b : Int) ≤ 10000 := by exact_mod_cast hb
  have hb0 : (0 : Int) ≤ (b : Int) := Int.natCast_nonneg b
  have habs : |r * (b : Int)| ≤ 2 ^ 113 * 10000 := by
    rw [abs_mul]
    apply mul_le_mul (abs_le.mpr ⟨hlo, hhi⟩)
    · rw [abs_of_nonneg hb0]
      exact hb1
    · exact abs_nonneg _
    · norm_num
  obtain ⟨hml, hmr⟩ := abs_le.mp habs
  have hmul : checked_mul r (b : Int) = some (r * (b : Int)) := by
    rw [checked_mul, if_neg]
    push_neg
    constructor
    · unfold i128_min
      nlinarith
    · unfold i128_max
      nlinarith
  have hdiv : checked_div (r * (b : Int)) 10000 = some ((r * (b : Int)).tdiv 10000) := by
    rw [checked_div, if_neg]
    push_neg
    refine ⟨by norm_num, fun _ => by norm_num⟩
  unfold compute_share
  rw [if_neg (by omega)]
  simp only [hmul, Option.getD_some, hdiv]
  obtain ⟨hl, hr2⟩ := tdiv_bps_bounds r b hb
  unfold clamp
  rw [max_eq_left hl, min_eq_left hr2]

theorem claimLoop_idx_bounds (s : State) (token : Addr) (b d now : Nat) :
    ∀ fuel i, i ≤ (claimLoop s token b d now i fuel).2.2 ∧
      (claimLoop s token b d now i fuel).2.2 ≤ i + fuel := by
  intro fuel
  induction fuel with
  | zero => intro i; simp [claimLoop]
  | succ n ih =>
    intro i
    have h := ih (i + 1)
    simp only [claimLoop]
    split
    · simp
    · dsimp only
      omega

theorem claimLoop_all_ready (s : State) (token : Addr) (b d now : Nat) :
    ∀ fuel i j, i ≤ j → j < (claimLoop s token b d now i fuel).2.2 →
      periodUnready s token d now j = false := by
  intro fuel
  induction fuel with
  | zero =>
    intro i j hij hj
    simp [claimLoop] at hj
    omega
  | succ n ih =>
    intro i j hij hj
    simp only [claimLoop] at hj
    by_cases hu : periodUnready s token d now i = true
    · rw [if_pos hu] at hj
      simp at hj
      omega
    · rw [if_neg hu] at hj
      rcases Nat.eq_or_lt_of_le hij with he | hl
      · subst he
        simpa using hu
      · exact ih (i + 1) j hl hj

theorem claimLoop_stops_at_unready (s : State) (token : Addr) (b d now : Nat) :
    ∀ fuel i, (claimLoop s token b d now i fuel).2.2 < i + fuel →
      periodUnready s token d now ((claimLoop s token b d now i fuel).2.2) = true := by
  intro fuel
  induction fuel with
  | zero =>
    intro i h
    simp [claimLoop] at h
  | succ n ih =>
    intro i h
    by_cases hu : periodUnready s token d now i = true
    · simp [claimLoop, hu]
    · simp only [claimLoop, if_neg hu] at h ⊢
      exact ih (i + 1) (by omega)

theorem claimLoop_payout_eq (s : State) (token : Addr) (b d now : Nat) :
    ∀ fuel i, (claimLoop s token b d now i fuel).1 =
      truncPayoutSum s token b i ((claimLoop s token b d now i fuel).2.2 - i) := by
  intro fuel
  induction fuel with
  | zero => intro i; simp [claimLoop, truncPayoutSum]
  | succ n ih =>
    intro i
    by_cases hu : periodUnready s token d now i = true
    · simp [claimLoop, hu, truncPayoutSum]
    · have hbd := claimLoop_idx_bounds s token b d now n (i + 1)
      simp only [claimLoop, if_neg hu]
      have hn : (claimLoop s token b d now (i + 1) n).2.2 - i =
          ((claimLoop s token b d now (i + 1) n).2.2 - (i + 1)) + 1 := by omega
      rw [hn, truncPayoutSum, ih (i + 1)]

theorem truncPayoutSum_eq_truncShareSum (s : State) (token : Addr) (b : Nat) (hb : b ≤ 10000) :
    ∀ n i, (∀ j, i ≤ j → j < i + n →
        -(2 ^ 113) ≤ revOf s token j ∧ revOf s token j ≤ 2 ^ 113) →
      truncPayoutSum s token b i n = truncShareSum s token b i n := by
  intro n
  induction n with
  | zero => intro i _; simp [truncPayoutSum, truncShareSum]
  | succ m ih =>
    intro i hbound
    obtain ⟨hl, hh⟩ := hbound i (le_refl i) (by omega)
    rw [truncPayoutSum, truncShareSum, compute_share_truncation_eq (revOf s token i) b hb hl hh,
      ih (i + 1) (fun j h1 h2 => hbound j (by omega) (by omega))]

theorem claimLoop_unready_start (s : State) (token : Addr) (b d now i : Nat) (fuel : Nat)
    (h : periodUnready s token d now i = true) :
    (claimLoop s token b d now i fuel).2.2 = i := by
  cases fuel with
  | zero => rfl
  | succ n => simp [claimLoop, h]

theorem unready_true_lt (s : State) (token : Addr) (d now j : Nat)
    (h : periodUnready s token d now j = true) :
    0 < d ∧ now < dtimeOf s token j + d := by
  simp only [periodUnready, Bool.and_eq_true, decide_eq_true_eq] at h
  exact ⟨h.1, lt_of_lt_of_le h.2 (min_le_left _ _)⟩

theorem unready_false_le (s : State) (token : Addr) (d now j : Nat) (hnow : now < u64_max)
    (hdt : dtimeOf s token j ≤ now) (h : periodUnready s token d now j = false) :
    dtimeOf s token j + d ≤ now := by
  simp only [periodUnready, Bool.and_eq_false_iff, decide_eq_false_iff_not, not_lt] at h
  rcases h with h | h
  · omega
  · rcases le_total (dtimeOf s token j + d) u64_max with hm | hm
    · rw [min_eq_left hm] at h
      exact h
    · rw [min_eq_right hm] at h
      omega

/-- Inversion of a successful `claim` call: the checks it passed, the cursor
it stored and the payout it returned. -/
theorem claim_ok_spec (s : State) (holder token : Addr) (mp now : Nat) (s2 : State) (p : Int)
    (hok : claim s holder token mp now = .ok (s2, p)) :
    s.blacklist token holder = false ∧
    (s.holder_share token holder).getD 0 ≠ 0 ∧
    cursorOf s token holder < s.period_count token ∧
    (claimRun s holder token mp now).2.2 ≠ cursorOf s token holder ∧
    s2.last_claimed_idx token holder = some ((claimRun s holder token mp now).2.2) ∧
    p = (claimRun s holder token mp now).1 := by
  simp only [claim] at hok
  split at hok
  · simp at hok
  · split at hok
    · simp at hok
    · split at hok
      · simp at hok
      · split at hok
        · simp at hok
        · rename_i hbl hsh hcnt hstop
          simp only [Except.ok.injEq, Prod.mk.injEq] at hok
          obtain ⟨hs2, hp⟩ := hok
          subst hs2
          rw [Bool.not_eq_true] at hbl
          refine ⟨hbl, hsh, by omega, hstop, upd2_same _ _ _ _, hp.symm⟩

theorem claimLoop_congr (s1 s2 : State) (token : Addr) (b d now : Nat)
    (he : s1.period_entry = s2.period_entry)
    (hd : s1.period_deposit_time = s2.period_deposit_time)
    (hr : s1.period_revenue = s2.period_revenue) :
    ∀ fuel i, claimLoop s1 token b d now i fuel = claimLoop s2 token b d now i fuel := by
  intro fuel
  induction fuel with
  | zero => intro i; rfl
  | succ n ih =>
    intro i
    simp only [claimLoop, ih (i + 1), periodUnready, pidOf, dtimeOf, revOf, he, hd, hr]

/-- The outcome of `claim` (payout or failure) depends only on the storage
it reads; in particular not on the lifecycle flags or the rounding mode. -/
theorem claim_outcome_congr (s1 s2 : State) (holder token : Addr) (mp now : Nat)
    (hbl : s1.blacklist = s2.blacklist) (hsh : s1.holder_share = s2.holder_share)
    (hidx : s1.last_claimed_idx = s2.last_claimed_idx)
    (hpc : s1.period_count = s2.period_count)
    (hcd : s1.claim_delay_secs = s2.claim_delay_secs)
    (he : s1.period_entry = s2.period_entry)
    (hd : s1.period_deposit_time = s2.period_deposit_time)
    (hr : s1.period_revenue = s2.period_revenue) :
    claimPayout (claim s1 holder token mp now) = claimPayout (claim s2 holder token mp now) ∧
    errOf (claim s1 holder token mp now) = errOf (claim s2 holder token mp now) := by
  have hrun : claimRun s1 holder token mp now = claimRun s2 holder token mp now := by
    simp only [claimRun, claimEnd, cursorOf, hsh, hidx, hpc, hcd]
    exact claimLoop_congr s1 s2 token _ _ now he hd hr _ _
  constructor
  · simp only [claim, cursorOf, hbl, hsh, hidx, hpc, hrun]
    repeat' (first | rfl | split)
  · simp only [claim, cursorOf, hbl, hsh, hidx, hpc, hrun]
    repeat' (first | rfl | split)

theorem get_offering_congr (s1 s2 : State) (issuer token : Addr)
    (hc : s1.offer_count = s2.offer_count) (hi : s1.offer_item = s2.offer_item) :
    get_offering s1 issuer token = get_offering s2 issuer token := by
  have hm : slotMatches s1 issuer token = slotMatches s2 issuer token := by
    funext i
    simp [slotMatches, hi]
  simp [get_offering, hc, hm, hi]

/-- C7: for every amount, every bps ≤ 10000 and every rounding mode, the
result of `compute_share` stays in `[min(0,amount), max(0,amount)]`, so its
magnitude never exceeds the amount's magnitude and its sign is zero or the
sign of the amount, even when the intermediate multiplication would
overflow. -/
theorem compute_share_no_over_distribution (amount : Int) (bps : Nat) (mode : RoundingMode)
    (hb : bps ≤ 10000) :
    min 0 amount ≤ compute_share amount bps mode ∧
      compute_share amount bps mode ≤ max 0 amount ∧
      |compute_share amount bps mode| ≤ |amount| ∧
      (compute_share amount bps mode = 0 ∨
        Int.sign (compute_share amount bps mode) = Int.sign amount) := by
  obtain ⟨h1, h2⟩ := compute_share_lo_hi amount bps mode
  refine ⟨h1, h2, ?_, ?_⟩
  · rcases le_total 0 amount with ha | ha
    · rw [min_eq_left ha] at h1
      rw [max_eq_right ha] at h2
      rw [abs_of_nonneg h1, abs_of_nonneg ha]
      exact h2
    · rw [min_eq_right ha] at h1
      rw [max_eq_left ha] at h2
      rw [abs_of_nonpos h2, abs_of_nonpos ha]
      omega
  · rcases le_total 0 amount with ha | ha
    · rw [min_eq_left ha] at h1
      rw [max_eq_right ha] at h2
      rcases eq_or_lt_of_le h1 with he | hl
      · exact Or.inl he.symm
      · exact Or.inr (by
          rw [Int.sign_eq_one_iff_pos.mpr hl, Int.sign_eq_one_iff_pos.mpr (lt_of_lt_of_le hl h2)])
    · rw [min_eq_right ha] at h1
      rw [max_eq_left ha] at h2
      rcases eq_or_lt_of_le h2 with he | hl
      · exact Or.inl he
      · exact Or.inr (by
          rw [Int.sign_eq_neg_one_iff_neg.mpr hl,
            Int.sign_eq_neg_one_iff_neg.mpr (lt_of_le_of_lt h1 hl)])

/-- Witness for C7 at amount 7, bps 2500, RoundHalfUp. -/
theorem compute_share_no_over_distribution_witness :
    min 0 (7 : Int) ≤ compute_share 7 2500 RoundingMode.RoundHalfUp ∧
      compute_share 7 2500 RoundingMode.RoundHalfUp ≤ max 0 (7 : Int) ∧
      |compute_share 7 2500 RoundingMode.RoundHalfUp| ≤ |(7 : Int)| ∧
      (compute_share 7 2500 RoundingMode.RoundHalfUp = 0 ∨
        Int.sign (compute_share 7 2500 RoundingMode.RoundHalfUp) = Int.sign 7) :=
  compute_share_no_over_distribution 7 2500 RoundingMode.RoundHalfUp (by decide)

/-- C6 counterexample: with testnet mode enabled, `register_offering`
accepts and stores `revenue_share_bps = 20000 > 10000`. -/
theorem testnet_stores_out_of_range_bps :
    sTestnet.testnet_mode = true ∧
      regItemAt (register_offering sTestnet 1 2 20000 4) 1 0 =
        some ⟨1, 2, 20000, 4⟩ ∧
      10000 < 20000 := by
  decide

/-- C6 (amended): `set_holder_share` never stores a `share_bps` above 10000
(in any mode), and `register_offering` stores only `revenue_share_bps ≤
10000 when testnet mode is disabled; with testnet mode enabled it may store
an out-of-range value. -/
theorem stored_bps_validation :
    (∀ s issuer token holder b s1, set_holder_share s issuer token holder b = .ok s1 →
      b ≤ 10000 ∧ s1.holder_share token holder = some b) ∧
    (∀ s issuer token b pa s1, s.testnet_mode = false →
      register_offering s issuer token b pa = .ok s1 →
      b ≤ 10000 ∧ s1.offer_item issuer (s.offer_count issuer) = some ⟨issuer, token, b, pa⟩) := by
  constructor
  · intro s issuer token holder b s1 hok
    unfold set_holder_share at hok
    split at hok
    · simp at hok
    · split at hok
      · simp at hok
      · split at hok
        · simp at hok
        · split at hok
          · simp at hok
          · simp only [Except.ok.injEq] at hok
            subst hok
            refine ⟨by omega, upd2_same _ _ _ _⟩
  · intro s issuer token b pa s1 htn hok
    unfold register_offering at hok
    split at hok
    · simp at hok
    · split at hok
      · simp at hok
      · split at hok
        · simp at hok
        · simp only [Except.ok.injEq] at hok
          subst hok
          constructor
          · rename_i hcond
            rw [htn] at hcond
            simp at hcond
            omega
          · exact upd2_same _ _ _ _

/-- Witness for the amended C6 on a concrete successful `set_holder_share`. -/
theorem stored_bps_validation_witness :
    4000 ≤ 10000 ∧ holderShareAt (set_holder_share sDeposit 1 2 3 4000) 2 3 = some 4000 := by
  refine ⟨by decide, ?_⟩
  exact (stored_bps_validation.1 sDeposit 1 2 3 4000
    { sDeposit with holder_share := upd2 sDeposit.holder_share 2 3 (some 4000) } rfl).2

/-- C9: a later successful `register_offering` for a token that already has
an issuer of record unconditionally repoints the token→issuer reverse index
to the new caller, without touching the pending-transfer table. -/
theorem register_overwrites_reverse_index (s : State) (issuerA issuerB token : Addr)
    (b : Nat) (pa : Addr) (s2 : State)
    (hprev : s.offering_issuer token = some issuerA)
    (hok : register_offering s issuerB token b pa = .ok s2) :
    s2.offering_issuer token = some issuerB ∧ s2.pending_transfer = s.pending_transfer := by
  unfold register_offering at hok
  split at hok
  · simp at hok
  · split at hok
    · simp at hok
    · split at hok
      · simp at hok
      · simp only [Except.ok.injEq] at hok
        subst hok
        exact ⟨upd1_same _ _ _, rfl⟩

theorem scanFirst_found (p : Nat → Bool) :
    ∀ fuel i k, i ≤ k → k < i + fuel → p k = true →
      (∀ j, i ≤ j → j < k → p j = false) → scanFirst p i fuel = some k := by
  intro fuel
  induction fuel with
  | zero => intro i k h1 h2 _ _; omega
  | succ n ih =>
    intro i k h1 h2 hk hbef
    rcases Nat.eq_or_lt_of_le h1 with he | hl
    · subst he
      simp [scanFirst, hk]
    · have hpi : p i = false := hbef i (le_refl i) hl
      simp only [scanFirst, hpi, Bool.false_eq_true, if_false]
      exact ih (i + 1) k hl (by omega) hk (fun j hj1 hj2 => hbef j (by omega) hj2)

theorem countMatching_zero (p : Nat → Bool) :
    ∀ n, (∀ j, j < n → p j = false) → countMatching p n = 0 := by
  intro n
  induction n with
  | zero => intro _; rfl
  | succ m ih =>
    intro h
    simp [countMatching, h m (by omega), ih (fun j hj => h j (by omega))]

theorem countMatching_last_one (p : Nat → Bool) (n : Nat)
    (h0 : ∀ j, j < n → p j = false) (h1 : p n = true) : countMatching p (n + 1) = 1 := by
  simp [countMatching, h1, countMatching_zero p n h0]

/-- Once a period's revenue is recorded, any further deposit for the same
(token, period) never succeeds, and fails with exactly
`PeriodAlreadyDeposited` when the earlier checks pass. -/
theorem deposit_second_fails (sW : State) (issuer token pt : Addr) (off : Offering)
    (amt : Int) (pid : Nat)
    (hfr : sW.frozen = false)
    (hoi : sW.offering_issuer token = some issuer)
    (hoff : get_offering sW issuer token = some off)
    (hpa : off.payout_asset = pt)
    (hdep : sW.period_revenue token pid = some amt) :
    (∀ amt2 now2, deposit_revenue sW issuer token pt amt2 pid now2 =
      .error (.err .PeriodAlreadyDeposited)) ∧
    (∀ issuer2 pt2 amt2 now2 s2, deposit_revenue sW issuer2 token pt2 amt2 pid now2 ≠ .ok s2) := by
  constructor
  · intro amt2 now2
    simp [deposit_revenue, hfr, hoi, hoff, hpa, hdep]
  · intro issuer2 pt2 amt2 now2 s2 hcontra
    simp only [deposit_revenue] at hcontra
    repeat' split at hcontra
    all_goals simp_all

/-- C3: a successful `deposit_revenue` stores the deposited amount; a repeat
deposit with the same issuer and payment token fails with
`PeriodAlreadyDeposited`, and no deposit for the same (token, period_id)
can ever succeed again, whatever its other arguments. -/
theorem deposit_write_once (s s1 : State) (issuer token pt : Addr) (amt : Int)
    (pid now1 : Nat)
    (hok : deposit_revenue s issuer token pt amt pid now1 = .ok s1) :
    s1.period_revenue token pid = some amt ∧
    (∀ amt2 now2, deposit_revenue s1 issuer token pt amt2 pid now2 =
      .error (.err .PeriodAlreadyDeposited)) ∧
    (∀ issuer2 pt2 amt2 now2 s2, deposit_revenue s1 issuer2 token pt2 amt2 pid now2 ≠ .ok s2) := by
  simp only [deposit_revenue] at hok
  split at hok
  · simp at hok
  · rename_i hfrz
    split at hok
    · simp at hok
    · rename_i cur heq
      split at hok
      · simp at hok
      · rename_i hne
        split at hok
        · simp at hok
        · rename_i off hoff
          split at hok
          · simp at hok
          · rename_i hpan
            split at hok
            · simp at hok
            · rename_i hnd
              have hfr : s.frozen = false := Bool.not_eq_true _ ▸ hfrz
              have hpa : off.payout_asset = pt := not_not.mp hpan
              rw [not_not.mp hne] at heq
              split at hok
              · rename_i pt0 hpt
                split at hok
                · simp at hok
                · simp only [Except.ok.injEq] at hok
                  subst hok
                  have hsec := deposit_second_fails
                    (deposit_writes s token amt pid now1) issuer token pt off amt pid
                    hfr heq (Eq.trans (get_offering_congr _ s issuer token rfl rfl) hoff) hpa
                    (upd2_same _ _ _ _)
                  exact ⟨upd2_same _ _ _ _, hsec.1, hsec.2⟩
              · rename_i hptnone
                simp only [Except.ok.injEq] at hok
                subst hok
                have hsec := deposit_second_fails
                  (deposit_writes { s with
                      payment_token := upd1 s.payment_token token (some pt) }
                    token amt pid now1) issuer token pt off amt pid
                  hfr heq (Eq.trans (get_offering_congr _ s issuer token rfl rfl) hoff) hpa
                  (upd2_same _ _ _ _)
                exact ⟨upd2_same _ _ _ _, hsec.1, hsec.2⟩

/-- Witness for C3: a second deposit for (token 2, period 9) after a
successful first one fails with `PeriodAlreadyDeposited`. -/
theorem deposit_write_once_witness :
    errOf (deposit_revenue (okStateD (deposit_revenue sDeposit 1 2 4 100 9 50)) 1 2 4 100 9 60) =
      some (.err .PeriodAlreadyDeposited) := by
  have h := (deposit_write_once sDeposit _ 1 2 4 100 9 50 rfl).2.1 100 60
  exact congrArg errOf h

/-- C10: every `report_revenue` call that returns Ok — including the
duplicate-without-override case — saturating-adds the reported amount to the
offering's audit `total_revenue` and adds one to its `report_count`. -/
theorem report_updates_audit_summary (s : State) (issuer token pa : Addr) (amount : Int)
    (pid now : Nat) (ovr : Bool) (s2 : State) (evs : List Ev)
    (hok : report_revenue s issuer token pa amount pid now ovr = .ok (s2, evs)) :
    s2.audit_summary issuer token = some
      ⟨saturating_add_i128 ((s.audit_summary issuer token).getD ⟨0, 0⟩).total_revenue amount,
       saturating_add_u64 ((s.audit_summary issuer token).getD ⟨0, 0⟩).report_count 1⟩ := by
  simp only [report_revenue] at hok
  repeat' split at hok
  all_goals first
    | (simp only [Except.ok.injEq, Prod.mk.injEq] at hok
       obtain ⟨hs2, _⟩ := hok
       subst hs2
       exact upd2_same _ _ _ _)
    | simp at hok

set_option maxRecDepth 10000 in
/-- Witness for C10 on the duplicate-report path of `sReport`. -/
theorem report_updates_audit_summary_witness :
    auditAt (report_revenue sReport 1 2 4 55 9 40 false) 1 2 =
      some ⟨saturating_add_i128 100 55, saturating_add_u64 1 1⟩ := by
  exact report_updates_audit_summary sReport 1 2 4 55 9 40 false _ _ rfl

/-- C8: a `report_revenue` call with `override_existing = false` on a period
that already has a stored report returns Ok, emits the rejection event, and
leaves the entire reports table — in particular that period's report —
unchanged. -/
theorem report_duplicate_soft_reject (s : State) (issuer token pa : Addr) (off : Offering)
    (amount a0 : Int) (pid now t0 : Nat)
    (hfr : s.frozen = false)
    (hoi : s.offering_issuer token = some issuer)
    (hpz : s.paused = false)
    (hoff : get_offering s issuer token = some off)
    (hpa : off.payout_asset = pa)
    (hcb : concBlocked s issuer token = false)
    (hdup : s.revenue_reports issuer token pid = some (a0, t0)) :
    okSat (report_revenue s issuer token pa amount pid now false) (fun r =>
      r.1.revenue_reports = s.revenue_reports ∧
      r.1.revenue_reports issuer token pid = some (a0, t0) ∧
      Ev.revRej ∈ r.2) := by
  simp [report_revenue, okSat, hfr, hoi, hpz, hoff, hpa, hcb, hdup]

/-- Witness for C8: the duplicate report on `sReport` leaves period 9's
stored report (100 at time 11) intact. -/
theorem report_duplicate_soft_reject_witness :
    reportsAt (report_revenue sReport 1 2 4 55 9 40 false) 1 2 9 = some (100, 11) := by
  have h := report_duplicate_soft_reject sReport 1 2 4 ⟨1, 2, 5000, 4⟩ 55 100 9 40 11
    rfl rfl rfl rfl rfl rfl rfl
  exact h.2.1

/-- C4: the claim cursor never decreases; a successful claim advances it
only past periods whose deposit timestamp plus the configured delay is at
most the current ledger time, stopping at the first unready period in the
scan window; and when the period at the cursor itself is unready, the call
fails with `ClaimDelayNotElapsed` leaving the state unchanged.  Hypotheses:
the ledger clock is below `u64::MAX` and no stored deposit timestamp lies
in the future — both hold on every reachable ledger state, since deposit
timestamps are ledger times and ledger time is monotone. -/
theorem claim_cursor_delay (s : State) (holder token : Addr) (mp now : Nat)
    (hnow : now < u64_max)
    (hdt : ∀ i, i < s.period_count token → dtimeOf s token i ≤ now) :
    cursorOf s token holder ≤ cursorOf (claimTx s holder token mp now) token holder ∧
    (∀ s2 p, claim s holder token mp now = .ok (s2, p) →
      cursorOf s token holder ≤ cursorOf s2 token holder ∧
      cursorOf s2 token holder ≤ s.period_count token ∧
      (∀ i, cursorOf s token holder ≤ i → i < cursorOf s2 token holder →
        dtimeOf s token i + (s.claim_delay_secs token).getD 0 ≤ now) ∧
      (cursorOf s2 token holder < claimEnd s holder token mp →
        0 < (s.claim_delay_secs token).getD 0 ∧
        now < dtimeOf s token (cursorOf s2 token holder) +
          (s.claim_delay_secs token).getD 0)) ∧
    (s.blacklist token holder = false →
      (s.holder_share token holder).getD 0 ≠ 0 →
      cursorOf s token holder < s.period_count token →
      periodUnready s token ((s.claim_delay_secs token).getD 0) now
        (cursorOf s token holder) = true →
      claim s holder token mp now = .error (.err .ClaimDelayNotElapsed) ∧
      claimTx s holder token mp now = s) := by
  have hkey : ∀ s2 p, claim s holder token mp now = .ok (s2, p) →
      cursorOf s token holder ≤ cursorOf s2 token holder ∧
      cursorOf s2 token holder ≤ s.period_count token ∧
      (∀ i, cursorOf s token holder ≤ i → i < cursorOf s2 token holder →
        dtimeOf s token i + (s.claim_delay_secs token).getD 0 ≤ now) ∧
      (cursorOf s2 token holder < claimEnd s holder token mp →
        0 < (s.claim_delay_secs token).getD 0 ∧
        now < dtimeOf s token (cursorOf s2 token holder) +
          (s.claim_delay_secs token).getD 0) := by
    intro s2 p hok
    obtain ⟨hbl, hsh, hcnt, hne, hlast, hp⟩ := claim_ok_spec s holder token mp now s2 p hok
    have hcur2 : cursorOf s2 token holder = (claimRun s holder token mp now).2.2 := by
      simp [cursorOf, hlast]
    have hbd : cursorOf s token holder ≤ (claimRun s holder token mp now).2.2 ∧
        (claimRun s holder token mp now).2.2 ≤
          cursorOf s token holder + (claimEnd s holder token mp - cursorOf s token holder) :=
      claimLoop_idx_bounds s token _ _ now _ _
    have hend : claimEnd s holder token mp ≤ s.period_count token := min_le_right _ _
    rw [hcur2]
    refine ⟨hbd.1, by omega, ?_, ?_⟩
    · intro i h1 h2
      have hready : periodUnready s token ((s.claim_delay_secs token).getD 0) now i = false :=
        claimLoop_all_ready s token _ _ now _ _ i h1 h2
      exact unready_false_le s token _ now i hnow (hdt i (by omega)) hready
    · intro hlt
      have hlt2 : (claimRun s holder token mp now).2.2 <
          cursorOf s token holder + (claimEnd s holder token mp - cursorOf s token holder) := by
        omega
      have hstop : periodUnready s token ((s.claim_delay_secs token).getD 0) now
          ((claimRun s holder token mp now).2.2) = true :=
        claimLoop_stops_at_unready s token _ _ now _ _ hlt2
      exact unready_true_lt s token _ now _ hstop
  refine ⟨?_, hkey, ?_⟩
  · unfold claimTx
    cases hc : claim s holder token mp now with
    | error e => exact le_refl _
    | ok pr =>
      obtain ⟨s2, p⟩ := pr
      exact (hkey s2 p hc).1
  · intro hbl hsh hcnt hun
    have hstart : ∀ fuel, (claimLoop s token ((s.holder_share token holder).getD 0)
        ((s.claim_delay_secs token).getD 0) now (cursorOf s token holder) fuel).2.2 =
        cursorOf s token holder :=
      fun fuel => claimLoop_unready_start s token _ _ now (cursorOf s token holder) fuel hun
    have hrun : (claimRun s holder token mp now).2.2 = cursorOf s token holder := hstart _
    have hclaim : claim s holder token mp now = .error (.err .ClaimDelayNotElapsed) := by
      simp only [claim]
      rw [if_neg (by simp [hbl]), if_neg hsh, if_neg (by omega), if_pos hrun]
    refine ⟨hclaim, ?_⟩
    unfold claimTx
    rw [hclaim]

set_option maxRecDepth 10000 in
/-- Witness for C4 on the two-period delayed state `sDelay`. -/
theorem claim_cursor_delay_witness :
    cursorOf sDelay 2 3 ≤ cursorOf (claimTx sDelay 3 2 0 100) 2 3 :=
  (claim_cursor_delay sDelay 3 2 0 100 (by decide) (by decide)).1

set_option maxRecDepth 10000 in
/-- C1 counterexample: with RoundHalfUp configured for (issuer 1, token 2),
a successful claim of the period with revenue 1 at share 5000 bps pays 0 —
plain truncating division — while `compute_share 1 5000 RoundHalfUp` = 1. -/
theorem claim_ignores_rounding_mode_cex :
    sHalfUp.rounding_mode 1 2 = some RoundingMode.RoundHalfUp ∧
    claimPayout (claim sHalfUp 3 2 0 100) = some 0 ∧
    compute_share 1 5000 RoundingMode.RoundHalfUp = 1 := by
  decide

/-- C1 (amended): a successful claim's payout is the sum over the scanned
eligible periods of the plain truncating division
`revenue * holder_share_bps / 10000`, which agrees with the Distribution
Math function under `Truncation` mode on non-overflowing revenues; the
offering's configured rounding mode has no effect on the call's outcome. -/
theorem claim_payout_truncating (s : State) (holder token : Addr) (mp now : Nat)
    (hb : (s.holder_share token holder).getD 0 ≤ 10000)
    (hrev : ∀ i, i < s.period_count token →
      -(2 ^ 113) ≤ revOf s token i ∧ revOf s token i ≤ 2 ^ 113) :
    (∀ f, claimPayout (claim { s with rounding_mode := f } holder token mp now) =
        claimPayout (claim s holder token mp now) ∧
      errOf (claim { s with rounding_mode := f } holder token mp now) =
        errOf (claim s holder token mp now)) ∧
    (∀ s2 p, claim s holder token mp now = .ok (s2, p) →
      p = truncShareSum s token ((s.holder_share token holder).getD 0)
            (cursorOf s token holder)
            (cursorOf s2 token holder - cursorOf s token holder)) := by
  constructor
  · intro f
    exact claim_outcome_congr { s with rounding_mode := f } s holder token mp now
      rfl rfl rfl rfl rfl rfl rfl rfl
  · intro s2 p hok
    obtain ⟨hbl, hsh, hcnt, hne, hlast, hp⟩ := claim_ok_spec s holder token mp now s2 p hok
    have hcur2 : cursorOf s2 token holder = (claimRun s holder token mp now).2.2 := by
      simp [cursorOf, hlast]
    have hpay : (claimRun s holder token mp now).1 =
        truncPayoutSum s token ((s.holder_share token holder).getD 0)
          (cursorOf s token holder)
          ((claimRun s holder token mp now).2.2 - cursorOf s token holder) :=
      claimLoop_payout_eq s token _ _ now _ _
    rw [hp, hcur2, hpay]
    apply truncPayoutSum_eq_truncShareSum s token _ hb
    intro j h1 h2
    have hbd : cursorOf s token holder ≤ (claimRun s holder token mp now).2.2 ∧
        (claimRun s holder token mp now).2.2 ≤
          cursorOf s token holder + (claimEnd s holder token mp - cursorOf s token holder) :=
      claimLoop_idx_bounds s token _ _ now _ _
    have hend : claimEnd s holder token mp ≤ s.period_count token := min_le_right _ _
    have hcnt2 : cursorOf s token holder < s.period_count token := hcnt
    exact hrev j (by omega)

set_option maxRecDepth 10000 in
/-- Witness for the amended C1 on `sHalfUp` with the rounding-mode table
replaced by the empty table. -/
theorem claim_payout_truncating_witness :
    claimPayout (claim { sHalfUp with rounding_mode := emptyState.rounding_mode } 3 2 0 100) =
      claimPayout (claim sHalfUp 3 2 0 100) :=
  ((claim_payout_truncating sHalfUp 3 2 0 100 (by decide) (by decide)).1
    emptyState.rounding_mode).1

set_option maxRecDepth 10000 in
/-- C2 counterexample: `claim` succeeds (paying 5) on a state that is both
frozen and paused, so this state-mutating entry point checks neither the
Frozen nor the Paused flag. -/
theorem claim_ignores_freeze_pause_cex :
    sFlags.frozen = true ∧ sFlags.paused = true ∧
    claimPayout (claim sFlags 3 2 0 100) = some 5 := by
  decide

/-- C2 (amended): `register_offering`, `blacklist_add` and
`blacklist_remove` check Frozen (failing with ContractFrozen) and then
Paused (panicking) before anything else; `report_revenue` checks Frozen,
then the reverse-index issuer (a role-specific check, returning
OfferingNotFound on a missing or mismatched issuer even while paused), and
only then Paused; `deposit_revenue` checks only Frozen and its outcome is
independent of Paused; `claim` checks neither flag and its outcome is
independent of both. -/
theorem lifecycle_flag_checks :
    (∀ s issuer token b pa, s.frozen = true →
      register_offering s issuer token b pa = .error (.err .ContractFrozen)) ∧
    (∀ s issuer token b pa, s.frozen = false → s.paused = true →
      register_offering s issuer token b pa = .error .panic) ∧
    (∀ s caller token investor, s.frozen = true →
      blacklist_add s caller token investor = .error (.err .ContractFrozen)) ∧
    (∀ s caller token investor, s.frozen = false → s.paused = true →
      blacklist_add s caller token investor = .error .panic) ∧
    (∀ s caller token investor, s.frozen = true →
      blacklist_remove s caller token investor = .error (.err .ContractFrozen)) ∧
    (∀ s caller token investor, s.frozen = false → s.paused = true →
      blacklist_remove s caller token investor = .error .panic) ∧
    (∀ s issuer token pt a pid now, s.frozen = true →
      deposit_revenue s issuer token pt a pid now = .error (.err .ContractFrozen)) ∧
    (∀ s issuer token pt a pid now b2,
      errOf (deposit_revenue { s with paused := b2 } issuer token pt a pid now) =
        errOf (deposit_revenue s issuer token pt a pid now)) ∧
    (∀ s issuer token pa a pid now ovr, s.frozen = true →
      report_revenue s issuer token pa a pid now ovr = .error (.err .ContractFrozen)) ∧
    (∀ s issuer token pa a pid now ovr, s.frozen = false →
      s.offering_issuer token = none →
      report_revenue s issuer token pa a pid now ovr = .error (.err .OfferingNotFound)) ∧
    (∀ s issuer cur token pa a pid now ovr, s.frozen = false →
      s.offering_issuer token = some cur → cur ≠ issuer →
      report_revenue s issuer token pa a pid now ovr = .error (.err .OfferingNotFound)) ∧
    (∀ s issuer token pa a pid now ovr, s.frozen = false →
      s.offering_issuer token = some issuer → s.paused = true →
      report_revenue s issuer token pa a pid now ovr = .error .panic) ∧
    (∀ s holder token mp now b1 b2,
      claimPayout (claim { s with frozen := b1, paused := b2 } holder token mp now) =
        claimPayout (claim s holder token mp now) ∧
      errOf (claim { s with frozen := b1, paused := b2 } holder token mp now) =
        errOf (claim s holder token mp now)) := by
  refine ⟨?_, ?_, ?_, ?_, ?_, ?_, ?_, ?_, ?_, ?_, ?_, ?_, ?_⟩
  · intro s issuer token b pa h
    simp [register_offering, h]
  · intro s issuer token b pa h1 h2
    simp [register_offering, h1, h2]
  · intro s caller token investor h
    simp [blacklist_add, h]
  · intro s caller token investor h1 h2
    simp [blacklist_add, h1, h2]
  · intro s caller token investor h
    simp [blacklist_remove, h]
  · intro s caller token investor h1 h2
    simp [blacklist_remove, h1, h2]
  · intro s issuer token pt a pid now h
    simp [deposit_revenue, h]
  · intro s issuer token pt a pid now b2
    have hg : get_offering { s with paused := b2 } issuer token = get_offering s issuer token :=
      get_offering_congr _ _ _ _ rfl rfl
    simp only [deposit_revenue, hg]
    repeat' (first | rfl | split)
  · intro s issuer token pa a pid now ovr h
    simp [report_revenue, h]
  · intro s issuer token pa a pid now ovr h1 h2
    simp [report_revenue, h1, h2]
  · intro s issuer cur token pa a pid now ovr h1 h2 h3
    simp [report_revenue, h1, h2, h3]
  · intro s issuer token pa a pid now ovr h1 h2 h3
    simp [report_revenue, h1, h2, h3]
  · intro s holder token mp now b1 b2
    exact claim_outcome_congr { s with frozen := b1, paused := b2 } s holder token mp now
      rfl rfl rfl rfl rfl rfl rfl rfl

/-- Witness for the amended C2: a frozen state rejects `register_offering`
with ContractFrozen, and on a paused state `report_revenue` with a
mismatched issuer returns OfferingNotFound rather than the paused panic. -/
theorem lifecycle_flag_checks_witness :
    register_offering sFlags 1 2 100 4 = .error (.err .ContractFrozen) ∧
    report_revenue { sReport with paused := true } 9 2 4 55 9 40 false =
      .error (.err .OfferingNotFound) :=
  ⟨lifecycle_flag_checks.1 sFlags 1 2 100 4 rfl,
   lifecycle_flag_checks.2.2.2.2.2.2.2.2.2.2.1 { sReport with paused := true } 9 1 2 4 55 9 40
     false rfl rfl (by decide)⟩

/-- Witness for C9: issuer 5 re-registers token 2 over issuer 1's record. -/
theorem register_overwrites_reverse_index_witness :
    okIssuerAt (register_offering sXfer 5 2 1000 4) 2 = some 5 := by
  exact (register_overwrites_reverse_index sXfer 1 5 2 1000 4
    { sXfer with
      offer_item := upd2 sXfer.offer_item 5 (sXfer.offer_count 5) (some ⟨5, 2, 1000, 4⟩)
      offer_count := updT sXfer.offer_count 5 (sXfer.offer_count 5 + 1)
      offering_issuer := upd1 sXfer.offering_issuer 2 (some 5) } rfl rfl).1

/-- C5: on a well-formed registry (the old issuer's list is dense, holds the
token's offering exactly once, and the new issuer's list does not hold it),
a pending transfer accepted by the new issuer makes `get_current_issuer`
return the new issuer, clears the pending entry, and moves the offering so
that it occurs zero times in the old issuer's list and exactly once in the
new issuer's list. -/
theorem accept_transfer_atomic (s : State) (token oldI newI : Addr) (offK : Offering) (k : Nat)
    (hfr : s.frozen = false)
    (hpend : s.pending_transfer token = some newI)
    (hoi : s.offering_issuer token = some oldI)
    (hne : oldI ≠ newI)
    (hk : k < s.offer_count oldI)
    (hks : s.offer_item oldI k = some offK)
    (hkt : offK.token = token)
    (huniq : ∀ j, j < s.offer_count oldI → j ≠ k → slotMatches s oldI token j = false)
    (hwf : ∀ j, j < s.offer_count oldI → (s.offer_item oldI j).isSome = true)
    (hnew : ∀ j, j < s.offer_count newI → slotMatches s newI token j = false) :
    okSat (accept_issuer_transfer s token) (fun s2 =>
      s2.offering_issuer token = some newI ∧
      s2.pending_transfer token = none ∧
      tokenCount s2 oldI token = 0 ∧
      tokenCount s2 newI token = 1) := by
  have hne' : newI ≠ oldI := Ne.symm hne
  have hmk : slotMatches s oldI token k = true := by
    simp [slotMatches, hks, hkt]
  have hscan : scanFirst (slotMatches s oldI token) 0 (s.offer_count oldI) = some k :=
    scanFirst_found _ _ 0 k (Nat.zero_le k) (by omega) hmk
      (fun j hj1 hj2 => huniq j (by omega) (by omega))
  have hget : get_offering s oldI token = some offK := by
    simp [get_offering, hscan, hks]
  simp only [accept_issuer_transfer, hfr, hpend, hoi, hget, hscan, Bool.false_eq_true,
    if_false]
  by_cases hkl : k < s.offer_count oldI - 1
  · have hne2 : ¬(oldI = oldI ∧ s.offer_count oldI - 1 = k) := by
      intro hcon
      omega
    obtain ⟨lastOff, hlast⟩ :=
      Option.isSome_iff_exists.mp (hwf (s.offer_count oldI - 1) (by omega))
    have hitems1 : upd2 s.offer_item oldI k none oldI (s.offer_count oldI - 1) = some lastOff := by
      rw [upd2_ne _ _ _ _ _ _ hne2]
      exact hlast
    have hlastne : decide (lastOff.token = token) = false := by
      have := huniq (s.offer_count oldI - 1) (by omega) (by omega)
      simpa [slotMatches, hlast] using this
    rw [if_pos hkl, hitems1]
    simp only [okSat]
    refine ⟨upd1_same _ _ _, upd1_same _ _ _, ?_, ?_⟩
    · simp only [tokenCount]
      have hc : (updT (updT s.offer_count oldI (s.offer_count oldI - 1)) newI
          (updT s.offer_count oldI (s.offer_count oldI - 1) newI + 1)) oldI =
          s.offer_count oldI - 1 := by
        simp [updT, hne, hne']
      rw [hc]
      apply countMatching_zero
      intro j hj
      have hjn : ¬(j = s.offer_count oldI - 1) := by omega
      by_cases hjk : j = k
      · subst hjk
        simp [slotMatches, upd2, hne, hjn, hlastne]
      · have huj := huniq j (by omega) hjk
        simp only [slotMatches] at huj
        simpa [slotMatches, upd2, hne, hjn, hjk] using huj
    · simp only [tokenCount]
      have hc : (updT (updT s.offer_count oldI (s.offer_count oldI - 1)) newI
          (updT s.offer_count oldI (s.offer_count oldI - 1) newI + 1)) newI =
          s.offer_count newI + 1 := by
        simp [updT, hne']
      rw [hc]
      apply countMatching_last_one
      · intro j hj
        have hjn2 : ¬(j = updT s.offer_count oldI (s.offer_count oldI - 1) newI) := by
          simp only [updT, hne', if_false]
          omega
        have hnj := hnew j hj
        simp only [slotMatches] at hnj
        simpa [slotMatches, upd2, hne', hjn2] using hnj
      · have hsame : updT s.offer_count oldI (s.offer_count oldI - 1) newI =
            s.offer_count newI := by
          simp [updT, hne']
        simp [slotMatches, upd2, hsame]
  · rw [if_neg hkl]
    simp only [okSat]
    refine ⟨upd1_same _ _ _, upd1_same _ _ _, ?_, ?_⟩
    · simp only [tokenCount]
      have hc : (updT (updT s.offer_count oldI (s.offer_count oldI - 1)) newI
          (updT s.offer_count oldI (s.offer_count oldI - 1) newI + 1)) oldI =
          s.offer_count oldI - 1 := by
        simp [updT, hne, hne']
      rw [hc]
      apply countMatching_zero
      intro j hj
      have hjk : ¬(j = k) := by omega
      have huj := huniq j (by omega) hjk
      simp only [slotMatches] at huj
      simpa [slotMatches, upd2, hne, hjk] using huj
    · simp only [tokenCount]
      have hc : (updT (updT s.offer_count oldI (s.offer_count oldI - 1)) newI
          (updT s.offer_count oldI (s.offer_count oldI - 1) newI + 1)) newI =
          s.offer_count newI + 1 := by
        simp [updT, hne']
      rw [hc]
      apply countMatching_last_one
      · intro j hj
        have hjn2 : ¬(j = updT s.offer_count oldI (s.offer_count oldI - 1) newI) := by
          simp only [updT, hne', if_false]
          omega
        have hnj := hnew j hj
        simp only [slotMatches] at hnj
        simpa [slotMatches, upd2, hne', hjn2] using hnj
      · have hsame : updT s.offer_count oldI (s.offer_count oldI - 1) newI =
            s.offer_count newI := by
          simp [updT, hne']
        simp [slotMatches, upd2, hsame]

set_option maxRecDepth 10000 in
/-- Witness for C5 on `sXfer`: issuer 4 accepts the pending transfer of
token 2 from issuer 1. -/
theorem accept_transfer_atomic_witness :
    okIssuerAt (accept_issuer_transfer sXfer 2) 2 = some 4 ∧
    tokenCount (okStateD (accept_issuer_transfer sXfer 2)) 1 2 = 0 ∧
    tokenCount (okStateD (accept_issuer_transfer sXfer 2)) 4 2 = 1 := by
  have h := accept_transfer_atomic sXfer 2 1 4 ⟨1, 2, 3000, 4⟩ 0 rfl rfl rfl (by decide)
    (by decide) rfl rfl (by decide) (by decide) (by decide)
  exact ⟨h.1, h.2.2.1, h.2.2.2⟩

end Revora
